import Mathlib

/-!
Shallow embedding of the `fitparse-rs` core (`src/objects.rs` and
`src/profile/parser.rs`) and verification of the specification's claims
about it.

Modelling conventions:
* Rust machine integers are modelled as `Nat` (unsigned) / `Int` (signed)
  with explicit wrapping (`% 2^w`) where the source's `as` casts and
  release-mode `+` wrap.
* Rust `panic!` / `unwrap` / `expect` is modelled by the `PanicOr` outcome
  type: `.panicked msg` means the call aborts the process; it is distinct
  from returning a recoverable error value to the caller.
* `f32` / `f64` payloads are modelled by their IEEE-754 bit patterns
  (`Nat`); finiteness is the exponent-field test on the bits.  The
  floating-point arithmetic and int/float conversion operations themselves
  are abstracted as parameters (`FloatOps`) since no verified statement
  depends on their values; every theorem quantifies over them.
* `to_ne_bytes` ("native endian") is parametrised by the platform's
  `Endianness`, exactly as the Rust functions' output depends on the
  compilation target.
-/

/-- Outcome of a Rust computation that can `panic!`: either a normal value
or a process abort carrying the panic message. -/
inductive PanicOr (α : Type) where
  | ok (val : α)
  | panicked (msg : String)
deriving DecidableEq

def PanicOr.isPanic {α : Type} : PanicOr α → Bool
  | .ok _ => false
  | .panicked _ => true

/-- Truncate an integer to `w` low bits, unsigned interpretation: Rust's
`as uN` cast for integer sources. -/
def wrapU (w : Nat) (x : Int) : Nat :=
  (x % ((2 : Int) ^ w)).toNat

/-- Truncate an integer to `w` bits, two's-complement signed
interpretation: Rust's `as iN` cast for integer sources. -/
def wrapI (w : Nat) (x : Int) : Int :=
  (x + 2 ^ (w - 1)) % 2 ^ w - 2 ^ (w - 1)

/-- Platform byte order: Rust's `to_ne_bytes` family depends on the
compilation target's endianness. -/
inductive Endianness where
  | little
  | big
deriving DecidableEq

/-- `w` bytes of `v`, least significant first (little-endian order). -/
def uleBytes : Nat → Nat → List Nat
  | 0, _ => []
  | n + 1, v => (v % 256) :: uleBytes n (v / 256)

/-- Native-order bytes: little-endian order on a little-endian platform,
reversed on a big-endian platform. -/
def neBytes (e : Endianness) (w v : Nat) : List Nat :=
  match e with
  | .little => uleBytes w v
  | .big => (uleBytes w v).reverse

/-- Decode a byte sequence as an unsigned little-endian integer. -/
def leDecode : List Nat → Nat
  | [] => 0
  | b :: rest => b + 256 * leDecode rest

/-- Abstract interpretation of the IEEE-754 operations the source uses on
`f32`/`f64` bit patterns.  No claim depends on their values, so they are
kept as parameters; all theorems hold for every interpretation. -/
structure FloatOps where
  /-- integer-to-`f64` conversion (`x as f64` on any integer type, which
  factors through the mathematical integer) -/
  intToF64 : Int → Nat
  /-- `f32 as f64` widening on bit patterns -/
  f32ToF64 : Nat → Nat
  /-- `f64 as f32` narrowing on bit patterns -/
  f64ToF32 : Nat → Nat
  /-- `f32 as i64` saturating truncation -/
  f32ToI64 : Nat → Int
  /-- `f64 as i64` saturating truncation -/
  f64ToI64 : Nat → Int
  /-- `f32` addition on bit patterns -/
  addF32 : Nat → Nat → Nat
  /-- `f64` addition on bit patterns -/
  addF64 : Nat → Nat → Nat

/-- A fixed, arbitrary interpretation of the abstract float operations,
used only to instantiate closed witness statements; every theorem below
holds for every `FloatOps`. -/
def trivFloatOps : FloatOps where
  intToF64 := fun _ => 0
  f32ToF64 := fun _ => 0
  f64ToF32 := fun _ => 0
  f32ToI64 := fun _ => 0
  f64ToI64 := fun _ => 0
  addF32 := fun _ _ => 0
  addF64 := fun _ _ => 0

/-- `DataFieldValue` from `src/objects.rs`: the tagged union over the wire
base types.  Unsigned payloads are `Nat`, signed payloads `Int`, floats
their IEEE bit patterns, the timestamp its epoch-second count
(`DateTime::timestamp()`), strings the Rust `String` payload. -/
inductive DataFieldValue where
  | Timestamp (val : Int)
  | Byte (val : Nat)
  | Enum (val : Nat)
  | SInt8 (val : Int)
  | UInt8 (val : Nat)
  | SInt16 (val : Int)
  | UInt16 (val : Nat)
  | SInt32 (val : Int)
  | UInt32 (val : Nat)
  | String (val : String)
  | Float32 (val : Nat)
  | Float64 (val : Nat)
  | UInt8z (val : Nat)
  | UInt16z (val : Nat)
  | UInt32z (val : Nat)
  | SInt64 (val : Int)
  | UInt64 (val : Nat)
  | UInt64z (val : Nat)
  | Array (vals : List DataFieldValue)

/-- IEEE-754 single finiteness on the bit pattern: the 8 exponent bits are
not all ones (`f32::is_finite`). -/
def f32IsFinite (bits : Nat) : Bool :=
  bits / 2 ^ 23 % 2 ^ 8 != 255

/-- IEEE-754 double finiteness on the bit pattern: the 11 exponent bits
are not all ones (`f64::is_finite`). -/
def f64IsFinite (bits : Nat) : Bool :=
  bits / 2 ^ 52 % 2 ^ 11 != 2047

mutual

/-- `DataFieldValue::is_valid` from `src/objects.rs`. -/
def DataFieldValue.is_valid : DataFieldValue → Bool
  | .Enum val => val != 0xFF
  | .SInt8 val => val != 0x7F
  | .UInt8 val => val != 0xFF
  | .SInt16 val => val != 0x7FFF
  | .UInt16 val => val != 0xFFFF
  | .SInt32 val => val != 0x7FFFFFFF
  | .UInt32 val => val != 0xFFFFFFFF
  | .String val => !(val.contains (Char.ofNat 0))
  | .Timestamp _ => true
  | .Float32 val => f32IsFinite val
  | .Float64 val => f64IsFinite val
  | .UInt8z val => val != 0x0
  | .UInt16z val => val != 0x0
  | .UInt32z val => val != 0x0
  | .Byte val => val != 0xFF
  | .SInt64 val => val != 0x7FFFFFFFFFFFFFFF
  | .UInt64 val => val != 0xFFFFFFFFFFFFFFFF
  | .UInt64z val => val != 0x0
  | .Array vals => !vals.isEmpty && allValid vals

/-- `vals.iter().all(|v| v.is_valid())` over a list of values. -/
def allValid : List DataFieldValue → Bool
  | [] => true
  | v :: rest => v.is_valid && allValid rest

end

/-- `DataFieldValue::as_f64` from `src/objects.rs`.  Returns the `f64` bit
pattern; the fall-through arm (`_ => None`) covers `Enum`, `Timestamp`,
`String` and `Array`. -/
def DataFieldValue.as_f64 (F : FloatOps) : DataFieldValue → Option Nat
  | .Byte val => some (F.intToF64 val)
  | .SInt8 val => some (F.intToF64 val)
  | .UInt8 val => some (F.intToF64 val)
  | .SInt16 val => some (F.intToF64 val)
  | .UInt16 val => some (F.intToF64 val)
  | .SInt32 val => some (F.intToF64 val)
  | .UInt32 val => some (F.intToF64 val)
  | .Float32 val => some (F.f32ToF64 val)
  | .Float64 val => some val
  | .UInt8z val => some (F.intToF64 val)
  | .UInt16z val => some (F.intToF64 val)
  | .UInt32z val => some (F.intToF64 val)
  | .SInt64 val => some (F.intToF64 val)
  | .UInt64 val => some (F.intToF64 val)
  | .UInt64z val => some (F.intToF64 val)
  | _ => none

/-- `DataFieldValue::as_i64` from `src/objects.rs`.  Integer payloads are
cast with Rust's `as i64` (two's-complement truncation, only effective for
`u64` payloads at or above `2^63`); the timestamp yields its epoch-second
count; the fall-through arm covers `String` and `Array`. -/
def DataFieldValue.as_i64 (F : FloatOps) : DataFieldValue → Option Int
  | .Byte val => some val
  | .Enum val => some val
  | .SInt8 val => some val
  | .UInt8 val => some val
  | .SInt16 val => some val
  | .UInt16 val => some val
  | .SInt32 val => some val
  | .UInt32 val => some val
  | .Timestamp val => some val
  | .Float32 val => some (F.f32ToI64 val)
  | .Float64 val => some (F.f64ToI64 val)
  | .UInt8z val => some val
  | .UInt16z val => some val
  | .UInt32z val => some val
  | .SInt64 val => some (wrapI 64 val)
  | .UInt64 val => some (wrapI 64 val)
  | .UInt64z val => some (wrapI 64 val)
  | _ => none

mutual

/-- `DataFieldValue::to_ne_bytes` from `src/objects.rs`, parametrised by
the platform's byte order (the Rust integer/float `to_ne_bytes` methods
emit the machine's native order).  Signed payloads serialize their
two's-complement bit pattern; the string serializes its UTF-8 bytes; the
array concatenates its elements' bytes. -/
def DataFieldValue.to_ne_bytes (e : Endianness) : DataFieldValue → List Nat
  | .Byte val => [val % 256]
  | .Enum val => [val % 256]
  | .SInt8 val => [wrapU 8 val]
  | .UInt8 val => [val % 256]
  | .SInt16 val => neBytes e 2 (wrapU 16 val)
  | .UInt16 val => neBytes e 2 (val % 2 ^ 16)
  | .SInt32 val => neBytes e 4 (wrapU 32 val)
  | .UInt32 val => neBytes e 4 (val % 2 ^ 32)
  | .String val => (val.toUTF8.toList.map (fun b => b.toNat))
  | .Timestamp val => neBytes e 8 (wrapU 64 val)
  | .Float32 val => neBytes e 4 (val % 2 ^ 32)
  | .Float64 val => neBytes e 8 (val % 2 ^ 64)
  | .UInt8z val => [val % 256]
  | .UInt16z val => neBytes e 2 (val % 2 ^ 16)
  | .UInt32z val => neBytes e 4 (val % 2 ^ 32)
  | .SInt64 val => neBytes e 8 (wrapU 64 val)
  | .UInt64 val => neBytes e 8 (val % 2 ^ 64)
  | .UInt64z val => neBytes e 8 (val % 2 ^ 64)
  | .Array vals => neBytesList e vals

/-- `vals.iter().flat_map(|v| v.to_ne_bytes())` over a list of values. -/
def neBytesList (e : Endianness) : List DataFieldValue → List Nat
  | [] => []
  | v :: rest => v.to_ne_bytes e ++ neBytesList e rest

end

mutual

/-- `impl Add for DataFieldValue` from `src/objects.rs` (release-mode
semantics: integer `+` and `as` casts wrap to the type's width).  Every
`panic!` branch of the source is the `.panicked` outcome.

Note on the `Array + Array` arm: the source builds
`vals.iter_mut().zip(..).map(|(v, o)| *v += o)` and immediately drops the
iterator without consuming it; Rust iterator adapters are lazy, so the
closure never runs and no element-wise addition is performed.  The arm
therefore returns the longer operand unchanged (the right operand when the
lengths are equal), which the translation reproduces. -/
def DataFieldValue.add (F : FloatOps) : DataFieldValue → DataFieldValue → PanicOr DataFieldValue
  | .Byte val, other =>
    match other.as_i64 F with
    | some o => .ok (.Byte ((val + wrapU 8 o) % 2 ^ 8))
    | none => .panicked "Cannot coerce value to integer"
  | .Enum val, other =>
    match other.as_i64 F with
    | some o => .ok (.Enum ((val + wrapU 8 o) % 2 ^ 8))
    | none => .panicked "Cannot coerce value to integer"
  | .SInt8 val, other =>
    match other.as_i64 F with
    | some o => .ok (.SInt8 (wrapI 8 (val + wrapI 8 o)))
    | none => .panicked "Cannot coerce value to integer"
  | .UInt8 val, other =>
    match other.as_i64 F with
    | some o => .ok (.UInt8 ((val + wrapU 8 o) % 2 ^ 8))
    | none => .panicked "Cannot coerce value to integer"
  | .SInt16 val, other =>
    match other.as_i64 F with
    | some o => .ok (.SInt16 (wrapI 16 (val + wrapI 16 o)))
    | none => .panicked "Cannot coerce value to integer"
  | .UInt16 val, other =>
    match other.as_i64 F with
    | some o => .ok (.UInt16 ((val + wrapU 16 o) % 2 ^ 16))
    | none => .panicked "Cannot coerce value to integer"
  | .SInt32 val, other =>
    match other.as_i64 F with
    | some o => .ok (.SInt32 (wrapI 32 (val + wrapI 32 o)))
    | none => .panicked "Cannot coerce value to integer"
  | .UInt32 val, other =>
    match other.as_i64 F with
    | some o => .ok (.UInt32 ((val + wrapU 32 o) % 2 ^ 32))
    | none => .panicked "Cannot coerce value to integer"
  | .String val, other =>
    match other with
    | .String o => .ok (.String (val ++ o))
    | _ => .panicked "Cannot add non-string to string"
  | .Timestamp _, _ => .panicked "Cannot add timestamps"
  | .Float32 val, other =>
    match other.as_f64 F with
    | some o => .ok (.Float32 (F.addF32 val (F.f64ToF32 o)))
    | none => .panicked "Cannot coerce value to float"
  | .Float64 val, other =>
    match other.as_f64 F with
    | some o => .ok (.Float64 (F.addF64 val o))
    | none => .panicked "Cannot coerce value to float"
  | .UInt8z val, other =>
    match other.as_i64 F with
    | some o => .ok (.UInt8z ((val + wrapU 8 o) % 2 ^ 8))
    | none => .panicked "Cannot coerce value to integer"
  | .UInt16z val, other =>
    match other.as_i64 F with
    | some o => .ok (.UInt16z ((val + wrapU 16 o) % 2 ^ 16))
    | none => .panicked "Cannot coerce value to integer"
  | .UInt32z val, other =>
    match other.as_i64 F with
    | some o => .ok (.UInt32z ((val + wrapU 32 o) % 2 ^ 32))
    | none => .panicked "Cannot coerce value to integer"
  | .SInt64 val, other =>
    match other.as_i64 F with
    | some o => .ok (.SInt64 (wrapI 64 (val + o)))
    | none => .panicked "Cannot coerce value to integer"
  | .UInt64 val, other =>
    match other.as_i64 F with
    | some o => .ok (.UInt64 ((val + wrapU 64 o) % 2 ^ 64))
    | none => .panicked "Cannot coerce value to integer"
  | .UInt64z val, other =>
    match other.as_i64 F with
    | some o => .ok (.UInt64z ((val + wrapU 64 o) % 2 ^ 64))
    | none => .panicked "Cannot coerce value to integer"
  | .Array vals, other =>
    match other with
    | .Array other_vals =>
      if vals.length > other_vals.length then
        .ok (.Array vals)
      else
        .ok (.Array other_vals)
    | _ =>
      match addList F vals other with
      | .ok res => .ok (.Array res)
      | .panicked m => .panicked m

/-- `vals.into_iter().map(|v| v + other.clone()).collect()`: element-wise
addition against a fixed right operand; the first panicking element aborts
the whole computation. -/
def addList (F : FloatOps) : List DataFieldValue → DataFieldValue → PanicOr (List DataFieldValue)
  | [], _ => .ok []
  | v :: rest, other =>
    match v.add F other with
    | .ok x =>
      match addList F rest other with
      | .ok xs => .ok (x :: xs)
      | .panicked m => .panicked m
    | .panicked m => .panicked m

end

/-- `Clone::clone` on a pure value: the identical value. -/
def DataFieldValue.clone (v : DataFieldValue) : DataFieldValue := v

/-- `impl AddAssign for DataFieldValue` from `src/objects.rs`:
`*self = self.clone() + other`.  The outcome is the new value stored in
the left operand (or the panic of the underlying addition). -/
def DataFieldValue.add_assign (F : FloatOps) (a other : DataFieldValue) : PanicOr DataFieldValue :=
  a.clone.add F other

/-- Spreadsheet cell values as exposed by the `calamine` reader
(`DataType`).  Finite `f64` cell payloads are modelled as rationals.
`calamine` has further variants (booleans, errors, ...); every variant
other than the four the parser names falls into the same fall-through
arms, so one representative (`Bool`) suffices. -/
inductive DataType where
  | Empty
  | String (s : String)
  | Float (f : Rat)
  | Int (i : Int)
  | Bool (b : Bool)
deriving DecidableEq

/-- `DataType::is_empty`: true exactly for the `Empty` cell. -/
def cellIsEmpty : DataType → Bool
  | .Empty => true
  | _ => false

/-- `DataType::get_string`: the payload of a `String` cell, `None`
otherwise. -/
def cellGetString : DataType → Option String
  | .String s => some s
  | _ => none

/-- `DataType::get_float`: the payload of a `Float` cell, `None`
otherwise (an `Int` cell is NOT coerced). -/
def cellGetFloat : DataType → Option Rat
  | .Float f => some f
  | _ => none

/-- Cell at column `i` of a row; `calamine`'s `Range` is rectangular and
pads absent cells with `Empty`. -/
def cellAt (row : List DataType) (i : Nat) : DataType :=
  row.getD i .Empty

/-- Truncation toward zero of a rational: the rounding used by Rust's
float-to-integer `as` casts. -/
def ratTrunc (q : Rat) : Int :=
  if 0 ≤ q then q.floor else q.ceil

/-- Rust `f64 as i64`: truncate toward zero, saturating at the `i64`
bounds. -/
def f64AsI64 (q : Rat) : Int :=
  max (-(2 ^ 63)) (min (2 ^ 63 - 1) (ratTrunc q))

/-- Rust `f64 as u8`: truncate toward zero, saturating at the `u8`
bounds. -/
def f64AsU8 (q : Rat) : Nat :=
  (max 0 (min 255 (ratTrunc q))).toNat

/-- Value of a single hexadecimal digit character. -/
def hexDigitVal (c : Char) : Option Nat :=
  if 48 ≤ c.toNat ∧ c.toNat ≤ 57 then some (c.toNat - 48)
  else if 97 ≤ c.toNat ∧ c.toNat ≤ 102 then some (c.toNat - 87)
  else if 65 ≤ c.toNat ∧ c.toNat ≤ 70 then some (c.toNat - 55)
  else none

/-- Base-16 digit-string value; `none` on an empty string or a non-digit
character. -/
def parseHexNat : List Char → Option Nat
  | [] => none
  | cs =>
    cs.foldl
      (fun acc c =>
        match acc, hexDigitVal c with
        | some a, some d => some (16 * a + d)
        | _, _ => none)
      (some 0)

/-- `i64::from_str_radix(s, 16)`: optional sign, then base-16 digits;
errors (modelled as `none`) on an empty or malformed string or on `i64`
overflow. -/
def fromStrRadix16 (s : String) : Option Int :=
  let signed : Option Int :=
    match s.data with
    | [] => none
    | c :: rest =>
      if c = '+' then (parseHexNat rest).map (fun n => (n : Int))
      else if c = '-' then (parseHexNat rest).map (fun n => -(n : Int))
      else (parseHexNat (c :: rest)).map (fun n => (n : Int))
  signed.bind (fun n => if -(2 ^ 63) ≤ n ∧ n ≤ 2 ^ 63 - 1 then some n else none)

/-- `FieldTypeVariant` from `src/profile/parser.rs`. -/
structure FieldTypeVariant where
  name : String
  value : Int
  comment : Option String
deriving DecidableEq

/-- `FieldTypeDefintion` (sic) from `src/profile/parser.rs`.  The
`BTreeMap<i64, FieldTypeVariant>` is modelled as an association list kept
sorted in strictly ascending key order. -/
structure FieldTypeDefintion where
  name : String
  base_type : String
  variant_map : List (Int × FieldTypeVariant)
deriving DecidableEq

/-- `MessageFieldDefinition` from `src/profile/parser.rs`. -/
structure MessageFieldDefinition where
  def_number : Nat
  name : String
  field_type : String
  scale : Rat
  offset : Rat
  units : String
  comment : Option String
deriving DecidableEq

/-- `MessageDefinition` from `src/profile/parser.rs`.  The
`BTreeMap<u8, MessageFieldDefinition>` is modelled as an association list
kept sorted in strictly ascending key order. -/
structure MessageDefinition where
  name : String
  field_map : List (Nat × MessageFieldDefinition)
deriving DecidableEq

/-- `BTreeMap::insert` on the sorted-association-list model (`Int` keys):
keeps keys strictly ascending, replacing the stored value when the key is
already present. -/
def btreeInsertI (k : Int) (v : FieldTypeVariant) : List (Int × FieldTypeVariant) → List (Int × FieldTypeVariant)
  | [] => [(k, v)]
  | (k1, v1) :: rest =>
    if k < k1 then (k, v) :: (k1, v1) :: rest
    else if k = k1 then (k, v) :: rest
    else (k1, v1) :: btreeInsertI k v rest

/-- `BTreeMap::insert` on the sorted-association-list model (`u8` keys). -/
def btreeInsertN (k : Nat) (v : MessageFieldDefinition) : List (Nat × MessageFieldDefinition) → List (Nat × MessageFieldDefinition)
  | [] => [(k, v)]
  | (k1, v1) :: rest =>
    if k < k1 then (k, v) :: (k1, v1) :: rest
    else if k = k1 then (k, v) :: rest
    else (k1, v1) :: btreeInsertN k v rest

/-- `base_type_to_rust_type` from `src/profile/parser.rs`: maps a base
type name to the Rust type used for enum generation, panicking on any
other name. -/
def base_type_to_rust_type (base_type_str : String) : PanicOr String :=
  match base_type_str with
  | "enum" => .ok "u8"
  | "sint8" => .ok "i8"
  | "uint8" => .ok "u8"
  | "uint8z" => .ok "u8"
  | "sint16" => .ok "i16"
  | "uint16" => .ok "u16"
  | "uint16z" => .ok "u16"
  | "sint32" => .ok "i32"
  | "uint32" => .ok "u32"
  | "uint32z" => .ok "u32"
  | _ => .panicked "unsupported base_type for enum field"

/-- The variant-value extraction of `process_types` (`match &row[3]`): a
float cell is cast with `as i64`, an integer cell is taken as is, a string
cell has its first two bytes (the `0x` marker) sliced off and the rest
parsed base-16 (`i64::from_str_radix(&v[2..], 16).unwrap()`; the slice
itself panics on a string shorter than two bytes); any other cell kind
panics. -/
def variantValueOfCell : DataType → PanicOr Int
  | .Float v => .ok (f64AsI64 v)
  | .Int v => .ok v
  | .String v =>
    if v.length < 2 then .panicked "byte index 2 is out of bounds"
    else
      match fromStrRadix16 (v.drop 2) with
      | some n => .ok n
      | none => .panicked "called Result::unwrap on an Err value"
  | _ => .panicked "Unsupported enum variant value data type"

/-- The loop body of `process_types`; the accumulator holds the
definitions built so far in reverse order (its head is the vector's last
element, the target of `last_mut`). -/
def processTypesLoop : List (List DataType) → List FieldTypeDefintion → PanicOr (List FieldTypeDefintion)
  | [], acc => .ok acc.reverse
  | row :: rest, acc =>
    if !cellIsEmpty (cellAt row 0) then
      match cellGetString (cellAt row 0) with
      | none => .panicked "Enum type name must be a string"
      | some enum_name =>
        match cellGetString (cellAt row 1) with
        | none => .panicked "Base type name must be a string"
        | some base_str =>
          match base_type_to_rust_type base_str with
          | .panicked m => .panicked m
          | .ok rust_type =>
            processTypesLoop rest ({ name := enum_name, base_type := rust_type, variant_map := [] } :: acc)
    else if !cellIsEmpty (cellAt row 2) then
      match acc with
      | [] => .panicked "field_types vector was empty!"
      | ft :: others =>
        match cellGetString (cellAt row 2) with
        | none => .panicked "Enum variant name must be a string"
        | some vname =>
          match variantValueOfCell (cellAt row 3) with
          | .panicked m => .panicked m
          | .ok value =>
            let comment := cellGetString (cellAt row 4)
            processTypesLoop rest
              ({ ft with variant_map := btreeInsertI value { name := vname, value := value, comment := comment } ft.variant_map } :: others)
    else
      processTypesLoop rest acc

/-- `process_types` from `src/profile/parser.rs`: skips the caption row,
then scans rows, a populated first column starting a new field-type
definition and a populated third column appending a variant to the most
recently started one. -/
def process_types (sheet : List (List DataType)) : PanicOr (List FieldTypeDefintion) :=
  processTypesLoop (sheet.drop 1) []

/-- The definition-number extraction of `new_message_field_definition`
(`match row[1]`): a float cell is cast with `as u8`, an integer cell with
`as u8`; any other cell kind panics. -/
def defNumberOfCell : DataType → PanicOr Nat
  | .Float v => .ok (f64AsU8 v)
  | .Int v => .ok (wrapU 8 v)
  | _ => .panicked "Field defintiton number must be an integer"

/-- `new_message_field_definition` from `src/profile/parser.rs`.  Name and
field type must be string cells (`expect` panics otherwise); a missing
scale defaults to `1.0`, a missing offset to `0.0`, a missing unit to the
empty string (`get_float` / `get_string` with `unwrap_or`). -/
def new_message_field_definition (row : List DataType) : PanicOr MessageFieldDefinition :=
  match defNumberOfCell (cellAt row 1) with
  | .panicked m => .panicked m
  | .ok def_number =>
    match cellGetString (cellAt row 2) with
    | none => .panicked "Field name must be a string"
    | some name =>
      match cellGetString (cellAt row 3) with
      | none => .panicked "Field type must be a string"
      | some ftype =>
        .ok
          { def_number := def_number
            name := name
            field_type := ftype
            scale := (cellGetFloat (cellAt row 6)).getD 1
            offset := (cellGetFloat (cellAt row 7)).getD 0
            units := (cellGetString (cellAt row 8)).getD ""
            comment := cellGetString (cellAt row 4) }

/-- The loop of `process_messages` over the remaining rows: a populated
first column closes the open message and starts a new one (panicking if
the cell is not a string); an empty first but populated second column
appends a field slot to the open message; a row with both empty is
silently skipped (the source's `else` branch holds only a
`TODO handle subfield` comment; the `last_def_number` variable it would
use is written but never read, so it is not modelled). -/
def processMessagesLoop : List (List DataType) → MessageDefinition → List MessageDefinition → PanicOr (List MessageDefinition)
  | [], msg, messages => .ok (messages ++ [msg])
  | row :: rest, msg, messages =>
    if !cellIsEmpty (cellAt row 0) then
      match cellGetString (cellAt row 0) with
      | some v => processMessagesLoop rest { name := v, field_map := [] } (messages ++ [msg])
      | none => .panicked "Message name must be a string"
    else if !cellIsEmpty (cellAt row 1) then
      match new_message_field_definition row with
      | .ok field => processMessagesLoop rest { msg with field_map := btreeInsertN field.def_number field msg.field_map } messages
      | .panicked m => .panicked m
    else
      processMessagesLoop rest msg messages

/-- `process_messages` from `src/profile/parser.rs`: skips two caption
rows, requires a next row (`rows.next().unwrap()` panics on a shorter
sheet) whose first column is a string naming the first message, then runs
the row loop; the final open message is pushed after the loop. -/
def process_messages (sheet : List (List DataType)) : PanicOr (List MessageDefinition) :=
  match sheet.drop 2 with
  | [] => .panicked "called Option::unwrap on a None value"
  | row :: rest =>
    match cellGetString (cellAt row 0) with
    | some v => processMessagesLoop rest { name := v, field_map := [] } []
    | none => .panicked "Message name must be a string"

/-- Spec model: the reserved invalid sentinel of an unsigned base type of
`bytes` bytes (all bits set: `0xFF`, `0xFFFF`, ...). -/
def unsignedSentinel (bytes : Nat) : Nat :=
  2 ^ (8 * bytes) - 1

/-- Spec model: the reserved invalid sentinel of a signed base type of
`bytes` bytes (maximum positive value: `0x7F`, `0x7FFF`, ...). -/
def signedSentinel (bytes : Nat) : Int :=
  2 ^ (8 * bytes - 1) - 1

mutual

/-- Modelled from the spec's validity rule (§3/§4.1): true unless the
payload equals its base type's reserved sentinel — the all-ones pattern
for unsigned/enum/byte types, the maximum positive value for signed types,
zero for the z family; floats are valid iff finite, strings iff they embed
no null byte, timestamps always; an array is valid iff it is non-empty and
every element is valid. -/
def specValid : DataFieldValue → Bool
  | .Enum val => val != unsignedSentinel 1
  | .SInt8 val => val != signedSentinel 1
  | .UInt8 val => val != unsignedSentinel 1
  | .SInt16 val => val != signedSentinel 2
  | .UInt16 val => val != unsignedSentinel 2
  | .SInt32 val => val != signedSentinel 4
  | .UInt32 val => val != unsignedSentinel 4
  | .String val => !(val.contains (Char.ofNat 0))
  | .Timestamp _ => true
  | .Float32 val => f32IsFinite val
  | .Float64 val => f64IsFinite val
  | .UInt8z val => val != 0
  | .UInt16z val => val != 0
  | .UInt32z val => val != 0
  | .Byte val => val != unsignedSentinel 1
  | .SInt64 val => val != signedSentinel 8
  | .UInt64 val => val != unsignedSentinel 8
  | .UInt64z val => val != 0
  | .Array vals => !vals.isEmpty && specAllValid vals

/-- Spec model: every element of the list is valid. -/
def specAllValid : List DataFieldValue → Bool
  | [] => true
  | v :: rest => specValid v && specAllValid rest

end

/-- The variants on which `as_f64` is defined: every variant except
`Enum`, `Timestamp`, `String` and `Array`. -/
def asF64Defined : DataFieldValue → Bool
  | .Enum _ => false
  | .Timestamp _ => false
  | .String _ => false
  | .Array _ => false
  | _ => true

/-- The variants on which `as_i64` is defined: every variant except
`String` and `Array`. -/
def asI64Defined : DataFieldValue → Bool
  | .String _ => false
  | .Array _ => false
  | _ => true

/-- A Types sheet with the caption row, one type header row, and two
variant rows whose value cells are the plain integer `1` and the
hexadecimal string `0x1F`. -/
def typesSheetHex : List (List DataType) :=
  [ [.String "Type Name", .String "Base Type", .String "Value Name", .String "Value", .String "Comment"],
    [.String "mesg_num", .String "uint16", .Empty, .Empty, .Empty],
    [.Empty, .Empty, .String "alpha", .Int 1, .Empty],
    [.Empty, .Empty, .String "beta", .String "0x1F", .Empty] ]

/-- The expected compile result for `typesSheetHex`. -/
def typesSheetHexResult : List FieldTypeDefintion :=
  [ { name := "mesg_num", base_type := "u16",
      variant_map :=
        [ (1, { name := "alpha", value := 1, comment := none }),
          (31, { name := "beta", value := 31, comment := none }) ] } ]

/-- A full field row of a Messages sheet: definition number 1, name `f1`,
type `uint8`, scale/offset/units cells left empty. -/
def fieldRowOne : List DataType :=
  [.Empty, .Int 1, .String "f1", .String "uint8", .Empty, .Empty, .Empty, .Empty, .Empty]

/-- The field-slot definition compiled from `fieldRowOne`. -/
def fieldOneDef : MessageFieldDefinition :=
  { def_number := 1, name := "f1", field_type := "uint8",
    scale := 1, offset := 0, units := "", comment := none }

/-- A sub-field continuation row: neither the message-name column nor the
definition-number column is populated. -/
def subFieldRow : List DataType :=
  [.Empty, .Empty, .String "sub", .String "uint8", .Empty, .Empty, .Empty, .Empty, .Empty]

/-- A Messages sheet containing one message, one field row, and one
sub-field continuation row. -/
def messagesSheetSub : List (List DataType) :=
  [ [.String "Message Name", .String "Field Def", .String "Field Name", .String "Field Type"],
    [.Empty, .Empty, .Empty, .Empty],
    [.String "record", .Empty, .Empty, .Empty],
    fieldRowOne,
    subFieldRow ]

/-- `messagesSheetSub` without its sub-field continuation row. -/
def messagesSheetNoSub : List (List DataType) :=
  [ [.String "Message Name", .String "Field Def", .String "Field Name", .String "Field Type"],
    [.Empty, .Empty, .Empty, .Empty],
    [.String "record", .Empty, .Empty, .Empty],
    fieldRowOne ]

/-- A Messages sheet whose third row's message-name column holds an
integer instead of a string. -/
def messagesSheetBadName : List (List DataType) :=
  [ [.String "Message Name", .String "Field Def", .String "Field Name", .String "Field Type"],
    [.Empty, .Empty, .Empty, .Empty],
    [.Int 5, .Empty, .Empty, .Empty] ]

/-- The variants whose `Add` arm goes through the integer coercion
`other.as_i64()`: every integer-like variant (enum and byte included). -/
def intArithKind : DataFieldValue → Bool
  | .Byte _ => true
  | .Enum _ => true
  | .SInt8 _ => true
  | .UInt8 _ => true
  | .SInt16 _ => true
  | .UInt16 _ => true
  | .SInt32 _ => true
  | .UInt32 _ => true
  | .UInt8z _ => true
  | .UInt16z _ => true
  | .UInt32z _ => true
  | .SInt64 _ => true
  | .UInt64 _ => true
  | .UInt64z _ => true
  | _ => false

/-- The variants whose `Add` arm goes through the float coercion
`other.as_f64()`. -/
def floatArithKind : DataFieldValue → Bool
  | .Float32 _ => true
  | .Float64 _ => true
  | _ => false

mutual

theorem valid_spec_aux : ∀ (v : DataFieldValue), v.is_valid = specValid v
  | .Timestamp _ => rfl
  | .Byte _ => rfl
  | .Enum _ => rfl
  | .SInt8 _ => rfl
  | .UInt8 _ => rfl
  | .SInt16 _ => rfl
  | .UInt16 _ => rfl
  | .SInt32 _ => rfl
  | .UInt32 _ => rfl
  | .String _ => rfl
  | .Float32 _ => rfl
  | .Float64 _ => rfl
  | .UInt8z _ => rfl
  | .UInt16z _ => rfl
  | .UInt32z _ => rfl
  | .SInt64 _ => rfl
  | .UInt64 _ => rfl
  | .UInt64z _ => rfl
  | .Array vals => by
      show (!vals.isEmpty && allValid vals) = (!vals.isEmpty && specAllValid vals)
      rw [allValid_spec_list vals]

theorem allValid_spec_list : ∀ (l : List DataFieldValue), allValid l = specAllValid l
  | [] => rfl
  | v :: rest => by
      show (v.is_valid && allValid rest) = (specValid v && specAllValid rest)
      rw [valid_spec_aux v, allValid_spec_list rest]

end

theorem processMessagesLoop_ok_length :
    ∀ (rows : List (List DataType)) (msg : MessageDefinition) (acc msgs : List MessageDefinition),
      processMessagesLoop rows msg acc = .ok msgs → acc.length < msgs.length := by
  intro rows
  induction rows with
  | nil =>
    intro msg acc msgs h
    simp only [processMessagesLoop, PanicOr.ok.injEq] at h
    subst h
    simp
  | cons row rest ih =>
    intro msg acc msgs h
    simp only [processMessagesLoop] at h
    by_cases h0 : cellIsEmpty (cellAt row 0) = true
    · simp only [h0, Bool.not_true, Bool.false_eq_true, if_false] at h
      by_cases h1 : cellIsEmpty (cellAt row 1) = true
      · simp only [h1, Bool.not_true, Bool.false_eq_true, if_false] at h
        exact ih msg acc msgs h
      · simp only [h1, Bool.not_false] at h
        simp only [if_true] at h
        cases hf : new_message_field_definition row with
        | ok field =>
          rw [hf] at h
          exact ih _ acc msgs h
        | panicked m => rw [hf] at h; cases h
    · simp only [h0, Bool.not_false, if_true] at h
      cases hs : cellGetString (cellAt row 0) with
      | some v =>
        rw [hs] at h
        have := ih _ (acc ++ [msg]) msgs h
        simp at this
        omega
      | none => rw [hs] at h; cases h

/-- C1: evaluation of `combine` (the `Add` impl) on
`Array([1,2,3]) + Array([10,20])`.  The source's element-wise addition
closure sits in an unconsumed lazy iterator and never runs, so the result
is the longer operand unchanged, `Array([1,2,3])` — not the
`Array([11,22,3])` the claim states (the result length does equal
`max(len(a), len(b))`). -/
theorem array_combine_lazy_map_eval :
    (∀ (F : FloatOps),
      DataFieldValue.add F (.Array [.UInt8 1, .UInt8 2, .UInt8 3]) (.Array [.UInt8 10, .UInt8 20])
        = .ok (.Array [.UInt8 1, .UInt8 2, .UInt8 3]))
  ∧ DataFieldValue.Array [.UInt8 1, .UInt8 2, .UInt8 3] ≠ .Array [.UInt8 11, .UInt8 22, .UInt8 3] := by
  refine ⟨fun F => rfl, ?_⟩
  intro h
  simp only [DataFieldValue.Array.injEq, List.cons.injEq] at h
  exact absurd h.1 (by simp)

/-- C2: evaluation of `to_ne_bytes` on `UInt16(1)`.  The serialization is
platform-native, not explicit little-endian: on a big-endian platform the
emitted bytes are `[0x00, 0x01]`, whose little-endian decode is `256`,
not the original value `1`; the little-endian byte order the claim
requires (`[0x01, 0x00]`) is produced only on little-endian platforms. -/
theorem to_ne_bytes_native_endian_eval :
    DataFieldValue.to_ne_bytes .big (.UInt16 1) = [0, 1]
  ∧ leDecode (DataFieldValue.to_ne_bytes .big (.UInt16 1)) = 256
  ∧ DataFieldValue.to_ne_bytes .little (.UInt16 1) = [1, 0]
  ∧ (256 : Nat) ≠ 1 := by
  refine ⟨rfl, rfl, rfl, by decide⟩

/-- C3 counterexample: compiling a Messages sheet containing a sub-field
continuation row (neither name nor definition-number column populated)
SUCCEEDS — it returns the same catalog as the sheet without that row —
instead of surfacing an `UnsupportedSpecFeature` failure as the claim
states. -/
theorem subfield_row_counterexample :
    process_messages messagesSheetSub = .ok [{ name := "record", field_map := [(1, fieldOneDef)] }]
  ∧ process_messages messagesSheetSub = process_messages messagesSheetNoSub := by
  exact ⟨by decide, by decide⟩

/-- C3 (amended): a Messages-section row with neither the message-name
column nor the definition-number column populated is silently skipped —
the row scanner continues with unchanged state (the source's `else` branch
holds only a TODO comment) and no failure of any kind is surfaced. -/
theorem subfield_row_skipped
    (row : List DataType) (rest : List (List DataType))
    (msg : MessageDefinition) (acc : List MessageDefinition)
    (h0 : cellAt row 0 = .Empty) (h1 : cellAt row 1 = .Empty) :
    processMessagesLoop (row :: rest) msg acc = processMessagesLoop rest msg acc := by
  simp [processMessagesLoop, h0, h1, cellIsEmpty]

theorem subfield_row_skipped_witness :
    cellAt subFieldRow 0 = .Empty
  ∧ cellAt subFieldRow 1 = .Empty
  ∧ processMessagesLoop [subFieldRow] { name := "record", field_map := [] } []
      = processMessagesLoop [] { name := "record", field_map := [] } [] :=
  ⟨rfl, rfl, subfield_row_skipped subFieldRow [] { name := "record", field_map := [] } [] rfl rfl⟩

/-- C4 counterexample: `as_f64` is NOT defined on the enum and timestamp
variants — both fall into the `_ => None` arm — contradicting the claim
that it is defined for every numeric-like variant including enum and
timestamp. -/
theorem as_f64_enum_timestamp_counterexample :
    DataFieldValue.as_f64 trivFloatOps (.Enum 3) = none
  ∧ DataFieldValue.as_f64 trivFloatOps (.Timestamp 0) = none :=
  ⟨rfl, rfl⟩

/-- C4 (amended): `as_f64` is defined (returns `Some`) exactly on the
numeric variants other than enum and timestamp, and undefined on enum,
timestamp, string and array; `as_i64` is defined exactly on every variant
other than string and array, with the timestamp interpreted as its integer
epoch-seconds count. -/
theorem numeric_coercion_domains (F : FloatOps) (v : DataFieldValue) :
    (v.as_f64 F).isSome = asF64Defined v
  ∧ (v.as_i64 F).isSome = asI64Defined v
  ∧ (∀ t : Int, DataFieldValue.as_i64 F (.Timestamp t) = some t) := by
  refine ⟨?_, ?_, fun t => rfl⟩ <;> cases v <;> rfl

/-- C5 counterexample: `combine` of a timestamp with another value does
not return a recoverable `TypeMismatch` result — the source's `Add` arm
for timestamps executes `panic!("Cannot add timestamps")`, aborting the
process (the `.panicked` outcome of the model, as opposed to a returned
`.ok` value). -/
theorem add_timestamp_counterexample :
    DataFieldValue.add trivFloatOps (.Timestamp 0) (.UInt8 1) = .panicked "Cannot add timestamps" :=
  rfl

/-- C5 (amended): `combine` with a timestamp left operand always aborts
with the panic `Cannot add timestamps`; a right operand that cannot be
coerced to an integer-kind left operand's numeric kind aborts with
`Cannot coerce value to integer`, to a float-kind left operand with
`Cannot coerce value to float`, and a non-string right operand against a
string aborts with `Cannot add non-string to string` — in every case a
process abort (panic), never a silently wrong success and never a
recoverable `TypeMismatch` result. -/
theorem add_mismatch_panics (F : FloatOps) :
    (∀ (t : Int) (b : DataFieldValue),
      DataFieldValue.add F (.Timestamp t) b = .panicked "Cannot add timestamps")
  ∧ (∀ (a b : DataFieldValue), intArithKind a = true → b.as_i64 F = none →
      DataFieldValue.add F a b = .panicked "Cannot coerce value to integer")
  ∧ (∀ (a b : DataFieldValue), floatArithKind a = true → b.as_f64 F = none →
      DataFieldValue.add F a b = .panicked "Cannot coerce value to float")
  ∧ (∀ (s : String) (b : DataFieldValue), (∀ s2, b ≠ .String s2) →
      DataFieldValue.add F (.String s) b = .panicked "Cannot add non-string to string") := by
  refine ⟨fun t b => rfl, ?_, ?_, ?_⟩
  · intro a b hk hi
    cases a <;> simp_all [DataFieldValue.add, intArithKind]
  · intro a b hk hf
    cases a <;> simp_all [DataFieldValue.add, floatArithKind]
  · intro s b hb
    cases b <;> first | rfl | exact absurd rfl (hb _)

theorem add_mismatch_panics_witness :
    DataFieldValue.add trivFloatOps (.Timestamp 0) (.UInt8 7) = .panicked "Cannot add timestamps"
  ∧ DataFieldValue.add trivFloatOps (.UInt8 1) (.String "x") = .panicked "Cannot coerce value to integer"
  ∧ DataFieldValue.add trivFloatOps (.Float32 0) (.Array []) = .panicked "Cannot coerce value to float"
  ∧ DataFieldValue.add trivFloatOps (.String "a") (.UInt8 1) = .panicked "Cannot add non-string to string" :=
  ⟨(add_mismatch_panics trivFloatOps).1 0 (.UInt8 7),
   (add_mismatch_panics trivFloatOps).2.1 (.UInt8 1) (.String "x") rfl rfl,
   (add_mismatch_panics trivFloatOps).2.2.1 (.Float32 0) (.Array []) rfl rfl,
   (add_mismatch_panics trivFloatOps).2.2.2 "a" (.UInt8 1) (fun s2 h => by cases h)⟩

/-- C6: `is_valid` agrees on every value with the spec's validity rule —
the reserved-sentinel table (all-ones for unsigned/enum/byte, maximum
positive for signed, zero for the z family), finiteness for floats, no
embedded null byte for strings, always-true for timestamps, and non-empty
plus all-elements-valid for arrays. -/
theorem is_valid_matches_spec (v : DataFieldValue) : v.is_valid = specValid v :=
  valid_spec_aux v

/-- C7: compiling a Types section consisting of one type header row
followed by two variant rows with value cells `1` (plain integer) and
`"0x1F"` (marker-prefixed hexadecimal string) produces a field-type
definition whose variant map has exactly the two entries keyed `1` and
`31`, in ascending key order; and a plain-integer, a lossless float and a
marker-prefixed hexadecimal cell all normalize to the same signed-64-bit
key. -/
theorem types_sheet_hex_compiles :
    process_types typesSheetHex = .ok typesSheetHexResult
  ∧ typesSheetHexResult.map (fun ft => ft.variant_map.map Prod.fst) = [[1, 31]]
  ∧ List.Chain' (· < ·) ([1, 31] : List Int)
  ∧ variantValueOfCell (.Int 31) = .ok 31
  ∧ variantValueOfCell (.Float 31) = .ok 31
  ∧ variantValueOfCell (.String "0x1F") = .ok 31 := by
  refine ⟨by decide, by decide, ?_, by decide, by decide, by decide⟩
  simp [List.chain'_cons]

/-- C8: in a compiled field-slot definition, a missing (empty) scale cell
defaults the scale to `1.0`, a missing offset cell defaults the offset to
`0.0`, and a missing unit cell defaults the unit to the empty string. -/
theorem field_slot_defaults (row : List DataType) (fd : MessageFieldDefinition)
    (h : new_message_field_definition row = .ok fd) :
    (cellAt row 6 = .Empty → fd.scale = 1)
  ∧ (cellAt row 7 = .Empty → fd.offset = 0)
  ∧ (cellAt row 8 = .Empty → fd.units = "") := by
  unfold new_message_field_definition at h
  cases hd : defNumberOfCell (cellAt row 1) with
  | panicked m => rw [hd] at h; cases h
  | ok n =>
    rw [hd] at h
    cases hs2 : cellGetString (cellAt row 2) with
    | none => rw [hs2] at h; cases h
    | some name =>
      rw [hs2] at h
      cases hs3 : cellGetString (cellAt row 3) with
      | none => rw [hs3] at h; cases h
      | some ftype =>
        rw [hs3] at h
        simp only [PanicOr.ok.injEq] at h
        subst h
        refine ⟨fun h6 => ?_, fun h7 => ?_, fun h8 => ?_⟩
        · simp [h6, cellGetFloat]
        · simp [h7, cellGetFloat]
        · simp [h8, cellGetString]

theorem field_slot_defaults_witness :
    new_message_field_definition fieldRowOne = .ok fieldOneDef
  ∧ fieldOneDef.scale = 1 ∧ fieldOneDef.offset = 0 ∧ fieldOneDef.units = "" := by
  have h : new_message_field_definition fieldRowOne = .ok fieldOneDef := by decide
  exact ⟨h, (field_slot_defaults fieldRowOne fieldOneDef h).1 rfl,
         (field_slot_defaults fieldRowOne fieldOneDef h).2.1 rfl,
         (field_slot_defaults fieldRowOne fieldOneDef h).2.2 rfl⟩

/-- C9: the compound assignment (`AddAssign`) leaves the left operand
equal to the result of `Add` applied to a clone of its original value —
the source implements it literally as `*self = self.clone() + other`. -/
theorem add_assign_matches_add (F : FloatOps) (a b : DataFieldValue) :
    a.add_assign F b = (a.clone).add F b :=
  rfl

/-- C10: `process_messages` panics on any sheet with fewer than three rows
(the `rows.next().unwrap()` after skipping two) and on any sheet whose
third row's first column is not a string; and whenever it does return a
catalog, the final open message has been pushed, so the catalog is
non-empty. -/
theorem process_messages_shape :
    (∀ (sheet : List (List DataType)), sheet.length < 3 → (process_messages sheet).isPanic = true)
  ∧ (∀ (sheet : List (List DataType)) (row : List DataType) (rest : List (List DataType)),
      sheet.drop 2 = row :: rest → cellGetString (cellAt row 0) = none →
      (process_messages sheet).isPanic = true)
  ∧ (∀ (sheet : List (List DataType)) (msgs : List MessageDefinition),
      process_messages sheet = .ok msgs → msgs ≠ []) := by
  refine ⟨?_, ?_, ?_⟩
  · intro sheet hlen
    have hdrop : sheet.drop 2 = [] := by
      apply List.drop_eq_nil_of_le
      omega
    simp [process_messages, hdrop, PanicOr.isPanic]
  · intro sheet row rest hdrop hs
    simp [process_messages, hdrop, hs, PanicOr.isPanic]
  · intro sheet msgs h
    unfold process_messages at h
    cases hdrop : sheet.drop 2 with
    | nil => rw [hdrop] at h; cases h
    | cons row rest =>
      rw [hdrop] at h
      cases hs : cellGetString (cellAt row 0) with
      | none => simp [hs] at h
      | some v =>
        simp only [hs] at h
        have hlen := processMessagesLoop_ok_length rest { name := v, field_map := [] } [] msgs h
        simp at hlen
        exact List.ne_nil_of_length_pos hlen

theorem process_messages_shape_witness :
    (process_messages []).isPanic = true
  ∧ (process_messages messagesSheetBadName).isPanic = true
  ∧ [({ name := "record", field_map := [(1, fieldOneDef)] } : MessageDefinition)] ≠ [] :=
  ⟨process_messages_shape.1 [] (by decide),
   process_messages_shape.2.1 messagesSheetBadName [.Int 5, .Empty, .Empty, .Empty] [] (by decide) rfl,
   process_messages_shape.2.2 messagesSheetNoSub
     [{ name := "record", field_map := [(1, fieldOneDef)] }] (by decide)⟩
